import Mathlib

/-!
Shallow embedding of `superset/examples/sf_population_polygons.py`.

The file under verification is the example-data loader
`load_sf_population_polygons(only_metadata, force)`.  We embed it as a pure
state-transition function over an explicit database state (the physical table
`sf_population_polygons` and the dataset-metadata catalog), parameterised by a
`World` describing the external collaborators (the remote payload behind the
example URL, the possible failures of the network / parse / SQL layers, the
example database identity and its default schema).  Every externally visible
action of the routine is additionally recorded in an effect trace, so that
frame claims ("no network fetch occurs") are statable.
-/

namespace SFPolygons

/-- SQLAlchemy column types used in the `dtype` argument of `df.to_sql`. -/
inductive SqlType where
  | bigInteger
  | float
  | text
deriving DecidableEq, Repr

/-- A JSON value, the shape of the raw `contour` column before re-encoding. -/
inductive Json where
  | null
  | bool (b : Bool)
  | num (n : Int)
  | str (s : String)
  | arr (elems : List Json)

/-- `json.dumps`: serialize a JSON value to text (the `df.contour.map(json.dumps)`
step of the source). -/
def Json.dumps : Json → String
  | .null => "null"
  | .bool b => cond b "true" "false"
  | .num n => toString n
  | .str s => "\x22" ++ s ++ "\x22"
  | .arr elems =>
      "[" ++ String.intercalate "," (elems.attach.map fun e => Json.dumps e.1)
        ++ "]"
decreasing_by
  have h := List.sizeOf_lt_of_mem e.2
  simp only [Json.arr.sizeOf_spec]
  omega

/-- One record of the remote gzip-compressed JSON payload
(`sf_population.json.gz`): fields `zipcode`, `population`, `contour`
(a nested JSON value) and `area`.  The numeric values pass through the routine
untouched, so integers stand in for them. -/
structure RawRow where
  zipcode : Int
  population : Int
  contour : Json
  area : Int

/-- A row as written to the physical table: identical to the raw row except
that `contour` has been re-encoded to its textual JSON serialization. -/
structure TableRow where
  zipcode : Int
  population : Int
  contour : String
  area : Int
deriving DecidableEq, Repr

/-- The per-row effect of `df["contour"] = df.contour.map(json.dumps)`. -/
def serializeRow (r : RawRow) : TableRow :=
  { zipcode := r.zipcode
    population := r.population
    contour := r.contour.dumps
    area := r.area }

/-- The physical table: its rows and its column schema (name, SQL type). -/
structure PhysTable where
  rows : List TableRow
  dtypes : List (String × SqlType)
deriving DecidableEq, Repr

/-- A dataset-metadata catalog record (a `SqlaTable` row): table name, schema,
description, link to a database connection (by id), the ad-hoc-filter flag and
the derived column descriptors. -/
structure DatasetRecord where
  table_name : String
  schema : String
  description : Option String
  databaseId : Nat
  filter_select_enabled : Bool
  columns : List (String × SqlType)
deriving DecidableEq, Repr

/-- The state touched by the routine: the physical table (`none` when the
table does not exist in the database) and the metadata catalog. -/
structure DBState where
  physTable : Option PhysTable
  catalog : List DatasetRecord
deriving DecidableEq, Repr

/-- The external collaborators of the routine: the outcome of the network
fetch of the example URL, the outcome of decompressing/parsing the payload,
the outcome of the bulk SQL write, and the identity of the example database
with its default schema name. -/
structure World where
  fetchErr : Option String
  parsed : Except String (List RawRow)
  sqlWriteErr : Option String
  exampleDbId : Nat
  defaultSchema : String

/-- Externally visible actions of one invocation, in order. -/
inductive Effect where
  | fetch (url : String)
  | replaceTable (name : String)
  | insertBatch (name : String) (rows : Nat)
  | logLine (msg : String)
  | queryDataset (name : String)
  | addRecord (name : String)
  | fetchMetadata (name : String)
deriving DecidableEq, Repr

def tblName : String := "sf_population_polygons"

def sfUrl : String := "sf_population.json.gz"

def sfDescription : String := "Population density of San Francisco"

/-- The `dtype` mapping passed to `df.to_sql`. -/
def sfDtype : List (String × SqlType) :=
  [("zipcode", .bigInteger), ("population", .bigInteger),
   ("contour", .text), ("area", .float)]

/-- Split a list into consecutive batches of at most `n` elements
(the `chunksize=n` insert behaviour of `df.to_sql`). -/
def toBatches (n : Nat) : List α → List (List α)
  | [] => []
  | x :: xs => (x :: xs.take (n - 1)) :: toBatches n (xs.drop (n - 1))
termination_by l => l.length
decreasing_by
  simp only [List.length_drop, List.length_cons]
  omega

/-- Modelled from the spec: `fetch_metadata` (catalog API, not in the sampled
source) refreshes the record's column descriptors from the physical table's
live schema; an absent table yields no column descriptors. -/
def liveColumns : Option PhysTable → List (String × SqlType)
  | some t => t.dtypes
  | none => []

/-- The `filter_by(table_name=tbl_name)` predicate of the catalog lookup:
it filters by table name only. -/
def matchesTblName (r : DatasetRecord) : Bool :=
  r.table_name = tblName

/-- The in-place mutation performed on the looked-up (or fresh) record:
`tbl.description = ...; tbl.database = database; tbl.filter_select_enabled =
True; tbl.fetch_metadata()`. -/
def applyMetadataUpdates (w : World) (cols : List (String × SqlType))
    (r : DatasetRecord) : DatasetRecord :=
  { r with
    description := some sfDescription
    databaseId := w.exampleDbId
    filter_select_enabled := true
    columns := cols }

/-- `table(table_name=tbl_name, schema=schema)`: a fresh record, fields not
set by the constructor left at their defaults. -/
def newDatasetRecord (schema : String) : DatasetRecord :=
  { table_name := tblName
    schema := schema
    description := none
    databaseId := 0
    filter_select_enabled := false
    columns := [] }

/-- Mutate the first catalog record matching the table name in place
(`query(...).first()` then attribute assignment); when none matches, add a
fresh record to the session (`db.session.add`). -/
def upsertFirst (f : DatasetRecord → DatasetRecord) (mk : DatasetRecord) :
    List DatasetRecord → List DatasetRecord
  | [] => [f mk]
  | r :: rs =>
      if matchesTblName r then f r :: rs else r :: upsertFirst f mk rs

/-- The unconditional metadata block of the routine (source lines 58-67):
log line, catalog lookup by table name, create-if-missing, attribute resets
and metadata refresh. -/
def metadataStep (w : World) (s : DBState) : DBState × List Effect :=
  let cols := liveColumns s.physTable
  let created := (s.catalog.find? matchesTblName).isNone
  ({ s with
      catalog := upsertFirst (applyMetadataUpdates w cols)
        (newDatasetRecord w.defaultSchema) s.catalog },
   [Effect.logLine ("Creating table " ++ tblName ++ " reference"),
    Effect.queryDataset tblName]
     ++ (if created then [Effect.addRecord tblName] else [])
     ++ [Effect.fetchMetadata tblName])

/-- The table produced by the data-load branch from a parsed payload `df`:
contour re-encoded, rows inserted in batches of 500 into a replaced table
with the explicit `dtype` schema. -/
def freshTable (df : List RawRow) : PhysTable :=
  { rows := (toBatches 500 (df.map serializeRow)).flatten
    dtypes := sfDtype }

/-- `load_sf_population_polygons(only_metadata, force)` as a state-transition
function.  Returns the resulting state (or the propagated error of the first
failing external operation) together with the effect trace of the call. -/
def load_sf_population_polygons (w : World) (only_metadata : Bool)
    (force : Bool) (s : DBState) : Except String DBState × List Effect :=
  let table_exists := s.physTable.isSome
  if !only_metadata && (!table_exists || force) then
    match w.fetchErr with
    | some e => (.error e, [Effect.fetch sfUrl])
    | none =>
      match w.parsed with
      | .error e => (.error e, [Effect.fetch sfUrl])
      | .ok df =>
        match w.sqlWriteErr with
        | some e => (.error e, [Effect.fetch sfUrl])
        | none =>
          let s1 : DBState := { s with physTable := some (freshTable df) }
          let p := metadataStep w s1
          (.ok p.1,
           [Effect.fetch sfUrl, Effect.replaceTable tblName]
             ++ (toBatches 500 (df.map serializeRow)).map
                 (fun b => Effect.insertBatch tblName b.length)
             ++ p.2)
  else
    let p := metadataStep w s
    (.ok p.1, p.2)

/-- Effects that touch the network or the physical table. -/
def Effect.isDataEffect : Effect → Bool
  | .fetch _ => true
  | .replaceTable _ => true
  | .insertBatch _ _ => true
  | _ => false

/-- Number of catalog records named `sf_population_polygons` in a state. -/
def sfRecordCount (s : DBState) : Nat :=
  (s.catalog.filter matchesTblName).length

theorem toBatches_flatten (n : Nat) (l : List α) :
    (toBatches n l).flatten = l := by
  match l with
  | [] => simp [toBatches]
  | x :: xs =>
    rw [toBatches]
    have ih := toBatches_flatten n (xs.drop (n - 1))
    simp [ih]
termination_by l.length
decreasing_by
  simp only [List.length_drop, List.length_cons]
  omega

theorem length_le_of_mem_toBatches (n : Nat) (l b : List α)
    (hb : b ∈ toBatches (n + 1) l) : b.length ≤ n + 1 := by
  match l with
  | [] => simp [toBatches] at hb
  | x :: xs =>
    rw [toBatches] at hb
    rcases List.mem_cons.mp hb with h | h
    · subst h
      simp only [Nat.add_sub_cancel, List.length_cons, List.length_take]
      omega
    · exact length_le_of_mem_toBatches n (xs.drop (n + 1 - 1)) b h
termination_by l.length
decreasing_by
  simp only [List.length_drop, List.length_cons]
  omega

@[simp]
theorem matchesTblName_applyMetadataUpdates (w : World)
    (cols : List (String × SqlType)) (r : DatasetRecord) :
    matchesTblName (applyMetadataUpdates w cols r) = matchesTblName r := rfl

@[simp]
theorem matchesTblName_newDatasetRecord (sch : String) :
    matchesTblName (newDatasetRecord sch) = true := by
  simp [matchesTblName, newDatasetRecord]

theorem upsertFirst_of_find?_none (f : DatasetRecord → DatasetRecord)
    (mk : DatasetRecord) (l : List DatasetRecord)
    (h : l.find? matchesTblName = none) :
    upsertFirst f mk l = l ++ [f mk] := by
  induction l with
  | nil => rfl
  | cons r rs ih =>
    by_cases hr : matchesTblName r
    · rw [List.find?_cons_of_pos _ hr] at h
      exact absurd h (by simp)
    · rw [List.find?_cons_of_neg _ hr] at h
      simp only [upsertFirst, if_neg hr, ih h, List.cons_append]

theorem find?_upsertFirst_of_some (w : World) (cols : List (String × SqlType))
    (mk : DatasetRecord) (l : List DatasetRecord) (r : DatasetRecord)
    (h : l.find? matchesTblName = some r) :
    (upsertFirst (applyMetadataUpdates w cols) mk l).find? matchesTblName
      = some (applyMetadataUpdates w cols r) := by
  induction l with
  | nil => simp at h
  | cons a rs ih =>
    by_cases ha : matchesTblName a
    · rw [List.find?_cons_of_pos _ ha] at h
      injection h with h
      subst h
      have hfa : matchesTblName (applyMetadataUpdates w cols a) = true := by
        simpa using ha
      simp only [upsertFirst, if_pos ha]
      rw [List.find?_cons_of_pos _ hfa]
    · rw [List.find?_cons_of_neg _ ha] at h
      simp only [upsertFirst, if_neg ha]
      rw [List.find?_cons_of_neg _ ha]
      exact ih h

theorem length_upsertFirst_of_some (f : DatasetRecord → DatasetRecord)
    (mk : DatasetRecord) (l : List DatasetRecord) (r : DatasetRecord)
    (h : l.find? matchesTblName = some r) :
    (upsertFirst f mk l).length = l.length := by
  induction l with
  | nil => simp at h
  | cons a rs ih =>
    by_cases ha : matchesTblName a
    · simp only [upsertFirst, if_pos ha, List.length_cons]
    · rw [List.find?_cons_of_neg _ ha] at h
      simp only [upsertFirst, if_neg ha, List.length_cons, ih h]

theorem filter_length_upsertFirst (w : World) (cols : List (String × SqlType))
    (sch : String) (l : List DatasetRecord) :
    ((upsertFirst (applyMetadataUpdates w cols) (newDatasetRecord sch)
        l).filter matchesTblName).length
      = match l.find? matchesTblName with
        | some _ => (l.filter matchesTblName).length
        | none => 1 := by
  induction l with
  | nil => simp [upsertFirst]
  | cons a rs ih =>
    by_cases ha : matchesTblName a
    · have hfa : matchesTblName (applyMetadataUpdates w cols a) = true := by
        simpa using ha
      rw [List.find?_cons_of_pos _ ha]
      simp [upsertFirst, ha, hfa, List.filter_cons]
    · have ha' : matchesTblName a = false := by simpa using ha
      rw [List.find?_cons_of_neg _ ha]
      simp [upsertFirst, ha', List.filter_cons, ih]

@[simp]
theorem metadataStep_fst_physTable (w : World) (s : DBState) :
    (metadataStep w s).1.physTable = s.physTable := rfl

@[simp]
theorem metadataStep_fst_catalog (w : World) (s : DBState) :
    (metadataStep w s).1.catalog
      = upsertFirst (applyMetadataUpdates w (liveColumns s.physTable))
          (newDatasetRecord w.defaultSchema) s.catalog := rfl

theorem metadataStep_no_data_effect (w : World) (s : DBState) :
    ∀ e ∈ (metadataStep w s).2, e.isDataEffect = false := by
  intro e he
  simp only [metadataStep, List.mem_append, List.mem_cons,
    List.not_mem_nil, or_false] at he
  rcases he with ((h | h) | h) | h
  · subst h; rfl
  · subst h; rfl
  · revert h
    split
    · intro h
      simp only [List.mem_cons, List.not_mem_nil, or_false] at h
      subst h; rfl
    · intro h
      simp at h
  · subst h; rfl

theorem fetchMetadata_mem_metadataStep (w : World) (s : DBState) :
    Effect.fetchMetadata tblName ∈ (metadataStep w s).2 := by
  simp [metadataStep]

theorem queryDataset_mem_metadataStep (w : World) (s : DBState) :
    Effect.queryDataset tblName ∈ (metadataStep w s).2 := by
  simp [metadataStep]

theorem find?_append_of_none {α : Type} (p : α → Bool) (l1 l2 : List α)
    (h : l1.find? p = none) : (l1 ++ l2).find? p = l2.find? p := by
  induction l1 with
  | nil => rfl
  | cons a rs ih =>
    by_cases ha : p a
    · rw [List.find?_cons_of_pos _ ha] at h
      exact absurd h (by simp)
    · rw [List.find?_cons_of_neg _ ha] at h
      rw [List.cons_append, List.find?_cons_of_neg _ ha]
      exact ih h

/-- After the upsert, the first record named `sf_population_polygons` is the
mutation applied to some base record (the looked-up one, or a fresh one). -/
theorem find?_catalog_after_upsert (w : World) (cols : List (String × SqlType))
    (sch : String) (l : List DatasetRecord) :
    ∃ r₀, (upsertFirst (applyMetadataUpdates w cols) (newDatasetRecord sch)
        l).find? matchesTblName = some (applyMetadataUpdates w cols r₀) := by
  cases hf : l.find? matchesTblName with
  | some r => exact ⟨r, find?_upsertFirst_of_some w cols _ l r hf⟩
  | none =>
    refine ⟨newDatasetRecord sch, ?_⟩
    rw [upsertFirst_of_find?_none _ _ _ hf, find?_append_of_none _ _ _ hf]
    rw [List.find?_cons_of_pos]
    simp

/-- When the data-load branch is skipped, the call is exactly the metadata
step on the unchanged state. -/
theorem load_skip (w : World) (o f : Bool) (s : DBState)
    (hc : (!o && (!s.physTable.isSome || f)) = false) :
    load_sf_population_polygons w o f s
      = (.ok (metadataStep w s).1, (metadataStep w s).2) := by
  simp only [load_sf_population_polygons]
  rw [if_neg]
  rw [hc]
  simp

/-- When the data-load branch is taken and all external operations succeed,
the call replaces the physical table with the fresh payload table and then
runs the metadata step, with the full effect trace. -/
theorem load_data (w : World) (o f : Bool) (s : DBState) (df : List RawRow)
    (hc : (!o && (!s.physTable.isSome || f)) = true)
    (hf : w.fetchErr = none) (hp : w.parsed = .ok df)
    (hw : w.sqlWriteErr = none) :
    load_sf_population_polygons w o f s
      = (.ok (metadataStep w ⟨some (freshTable df), s.catalog⟩).1,
         [Effect.fetch sfUrl, Effect.replaceTable tblName]
           ++ (toBatches 500 (df.map serializeRow)).map
               (fun b => Effect.insertBatch tblName b.length)
           ++ (metadataStep w ⟨some (freshTable df), s.catalog⟩).2) := by
  simp only [load_sf_population_polygons]
  rw [if_pos hc, hf, hp, hw]

/-- When the data-load branch is taken and the network fetch fails, the fault
propagates unchanged after a single fetch attempt. -/
theorem load_fetch_err (w : World) (o f : Bool) (s : DBState) (e : String)
    (hc : (!o && (!s.physTable.isSome || f)) = true)
    (hf : w.fetchErr = some e) :
    load_sf_population_polygons w o f s = (.error e, [Effect.fetch sfUrl]) := by
  simp only [load_sf_population_polygons]
  rw [if_pos hc, hf]

/-- When the data-load branch is taken and the payload parse fails, the fault
propagates unchanged after a single fetch attempt. -/
theorem load_parse_err (w : World) (o f : Bool) (s : DBState) (e : String)
    (hc : (!o && (!s.physTable.isSome || f)) = true)
    (hf : w.fetchErr = none) (hp : w.parsed = .error e) :
    load_sf_population_polygons w o f s = (.error e, [Effect.fetch sfUrl]) := by
  simp only [load_sf_population_polygons]
  rw [if_pos hc, hf, hp]

/-- When the data-load branch is taken and the bulk SQL write fails, the fault
propagates unchanged after a single fetch attempt. -/
theorem load_write_err (w : World) (o f : Bool) (s : DBState)
    (df : List RawRow) (e : String)
    (hc : (!o && (!s.physTable.isSome || f)) = true)
    (hf : w.fetchErr = none) (hp : w.parsed = .ok df)
    (hw : w.sqlWriteErr = some e) :
    load_sf_population_polygons w o f s = (.error e, [Effect.fetch sfUrl]) := by
  simp only [load_sf_population_polygons]
  rw [if_pos hc, hf, hp, hw]

/-- Every successful run ends in a state whose catalog is the metadata upsert
applied to the starting catalog, and whose physical table is either untouched
or freshly rebuilt from the parsed payload. -/
theorem load_ok_shape (w : World) (o f : Bool) (s s' : DBState)
    (h : (load_sf_population_polygons w o f s).1 = .ok s') :
    ∃ pt : Option PhysTable,
      s'.physTable = pt ∧
      s'.catalog = upsertFirst (applyMetadataUpdates w (liveColumns pt))
        (newDatasetRecord w.defaultSchema) s.catalog ∧
      (pt = s.physTable ∨ ∃ df, w.parsed = .ok df ∧ pt = some (freshTable df)) := by
  simp only [load_sf_population_polygons] at h
  by_cases hc : (!o && (!s.physTable.isSome || f)) = true
  · rw [if_pos hc] at h
    cases hf : w.fetchErr with
    | some e => rw [hf] at h; exact absurd h (by simp)
    | none =>
      rw [hf] at h
      cases hp : w.parsed with
      | error e => rw [hp] at h; exact absurd h (by simp)
      | ok df =>
        rw [hp] at h
        cases hw : w.sqlWriteErr with
        | some e => rw [hw] at h; exact absurd h (by simp)
        | none =>
          rw [hw] at h
          simp only [Except.ok.injEq] at h
          refine ⟨some (freshTable df), ?_, ?_, Or.inr ⟨df, rfl, rfl⟩⟩
          · rw [← h]; rfl
          · rw [← h]; rfl
  · rw [if_neg hc] at h
    simp only [Except.ok.injEq] at h
    exact ⟨s.physTable, by rw [← h]; rfl, by rw [← h]; rfl, Or.inl rfl⟩

/-- A sample remote payload row with a nested JSON contour value. -/
def sampleRow : RawRow :=
  { zipcode := 94110
    population := 74633
    contour := Json.arr [Json.num 1, Json.num 2]
    area := 3 }

/-- A sample world in which every external operation succeeds. -/
def sampleWorld : World :=
  { fetchErr := none
    parsed := .ok [sampleRow]
    sqlWriteErr := none
    exampleDbId := 7
    defaultSchema := "main" }

/-- A sample world in which the network fetch fails. -/
def errWorld : World :=
  { fetchErr := some "connection refused"
    parsed := .error "unused"
    sqlWriteErr := none
    exampleDbId := 7
    defaultSchema := "main" }

/-- A fresh database: no physical table, empty catalog. -/
def emptyState : DBState :=
  { physTable := none, catalog := [] }

/-- A database where the physical table already exists, with contents that
differ from what the sample payload would produce, and an empty catalog. -/
def presentState : DBState :=
  { physTable := some { rows := [], dtypes := sfDtype }, catalog := [] }

/-- The state produced by a metadata-only call on `presentState` under
`sampleWorld`: table untouched, one fresh catalog record. -/
def presentMetaResult : DBState :=
  { physTable := some { rows := [], dtypes := sfDtype }
    catalog := [{ table_name := tblName
                  schema := "main"
                  description := some sfDescription
                  databaseId := 7
                  filter_select_enabled := true
                  columns := sfDtype }] }

/-- The state produced by a metadata-only call on `emptyState` under
`sampleWorld`: no table, one fresh catalog record with no columns. -/
def metadataOnlyResult : DBState :=
  { physTable := none
    catalog := [{ table_name := tblName
                  schema := "main"
                  description := some sfDescription
                  databaseId := 7
                  filter_select_enabled := true
                  columns := [] }] }

/-- A pre-existing catalog record named `sf_population_polygons` that belongs
to a different database (id 99) and a different schema. -/
def foreignRecord : DatasetRecord :=
  { table_name := tblName
    schema := "legacy_schema"
    description := some "stale"
    databaseId := 99
    filter_select_enabled := false
    columns := [("x", SqlType.text)] }

/-- A database with no physical table whose catalog holds `foreignRecord`. -/
def foreignState : DBState :=
  { physTable := none, catalog := [foreignRecord] }

/-- The state produced by a metadata-only call on `foreignState` under
`sampleWorld`: the foreign record rebound to database 7, schema kept. -/
def foreignResult : DBState :=
  { physTable := none
    catalog := [{ table_name := tblName
                  schema := "legacy_schema"
                  description := some sfDescription
                  databaseId := 7
                  filter_select_enabled := true
                  columns := [] }] }

/-- On every successful run, both catalog-touching effects (the dataset
lookup and the metadata refresh) appear in the trace. -/
theorem load_ok_mem_meta (w : World) (o f : Bool) (s s' : DBState)
    (h : (load_sf_population_polygons w o f s).1 = .ok s') :
    Effect.queryDataset tblName ∈ (load_sf_population_polygons w o f s).2 ∧
    Effect.fetchMetadata tblName
      ∈ (load_sf_population_polygons w o f s).2 := by
  cases hcv : (!o && (!s.physTable.isSome || f)) with
  | false =>
    rw [load_skip w o f s hcv]
    exact ⟨queryDataset_mem_metadataStep w s,
      fetchMetadata_mem_metadataStep w s⟩
  | true =>
    have hc := hcv
    cases hfe : w.fetchErr with
    | some e => rw [load_fetch_err w o f s e hc hfe] at h; simp at h
    | none =>
      cases hpe : w.parsed with
      | error e => rw [load_parse_err w o f s e hc hfe hpe] at h; simp at h
      | ok df =>
        cases hwe : w.sqlWriteErr with
        | some e =>
          rw [load_write_err w o f s df e hc hfe hpe hwe] at h; simp at h
        | none =>
          rw [load_data w o f s df hc hfe hpe hwe]
          exact ⟨List.mem_append_right _ (queryDataset_mem_metadataStep w _),
            List.mem_append_right _ (fetchMetadata_mem_metadataStep w _)⟩

/-- After every successful run, the first catalog record named
`sf_population_polygons` carries the fixed description, the example database
link, the enabled filter flag, and the live column list. -/
theorem load_ok_record_fixed (w : World) (o f : Bool) (s s' : DBState)
    (h : (load_sf_population_polygons w o f s).1 = .ok s') :
    ∃ r, s'.catalog.find? matchesTblName = some r ∧
      r.description = some sfDescription ∧
      r.filter_select_enabled = true ∧
      r.databaseId = w.exampleDbId ∧
      r.columns = liveColumns s'.physTable := by
  obtain ⟨pt, hpt, hcat, _⟩ := load_ok_shape w o f s s' h
  subst hpt
  obtain ⟨r₀, hr⟩ := find?_catalog_after_upsert w
    (liveColumns s'.physTable) w.defaultSchema s.catalog
  refine ⟨applyMetadataUpdates w (liveColumns s'.physTable) r₀,
    ?_, rfl, rfl, rfl, rfl⟩
  rw [hcat]
  exact hr

/-- C1: a call with `only_metadata = true` performs no network fetch and never
creates, drops or writes the physical table, for both values of `force`: the
call succeeds, leaves the physical table exactly as it was, and its effect
trace contains no fetch, table-replace or insert effect. -/
theorem C1_only_metadata_no_fetch_no_table_write (w : World) (force : Bool)
    (s : DBState) :
    (∃ s', (load_sf_population_polygons w true force s).1 = .ok s' ∧
        s'.physTable = s.physTable) ∧
    ∀ e ∈ (load_sf_population_polygons w true force s).2,
      e.isDataEffect = false := by
  have hload := load_skip w true force s rfl
  constructor
  · exact ⟨(metadataStep w s).1, by rw [hload],
      metadataStep_fst_physTable w s⟩
  · intro e he
    rw [hload] at he
    exact metadataStep_no_data_effect w s e he

/-- C3: with `force = false` and the physical table already present, the call
succeeds with no network fetch and no table write: the physical table is left
unchanged and only the metadata catalog is mutated, by the upsert. -/
theorem C3_no_force_existing_table_frame (w : World) (only_metadata : Bool)
    (s : DBState) (h : s.physTable.isSome = true) :
    (∃ s', (load_sf_population_polygons w only_metadata false s).1 = .ok s' ∧
        s'.physTable = s.physTable ∧
        s'.catalog = upsertFirst
          (applyMetadataUpdates w (liveColumns s.physTable))
          (newDatasetRecord w.defaultSchema) s.catalog) ∧
    ∀ e ∈ (load_sf_population_polygons w only_metadata false s).2,
      e.isDataEffect = false := by
  have hc : (!only_metadata && (!s.physTable.isSome || false)) = false := by
    rw [h]; simp
  have hload := load_skip w only_metadata false s hc
  refine ⟨⟨(metadataStep w s).1, by rw [hload],
    metadataStep_fst_physTable w s, metadataStep_fst_catalog w s⟩, ?_⟩
  intro e he
  rw [hload] at he
  exact metadataStep_no_data_effect w s e he

/-- C3 witness: the concrete instance at `sampleWorld` and `presentState`. -/
theorem C3_no_force_existing_table_frame_witness :
    presentState.physTable.isSome = true ∧
    ((∃ s', (load_sf_population_polygons sampleWorld true false
          presentState).1 = .ok s' ∧
        s'.physTable = presentState.physTable ∧
        s'.catalog = upsertFirst
          (applyMetadataUpdates sampleWorld
            (liveColumns presentState.physTable))
          (newDatasetRecord sampleWorld.defaultSchema) presentState.catalog) ∧
      ∀ e ∈ (load_sf_population_polygons sampleWorld true false
          presentState).2, e.isDataEffect = false) :=
  ⟨rfl, C3_no_force_existing_table_frame sampleWorld true presentState rfl⟩

/-- C2 counterexample: a call with `force = true` but `only_metadata = true`
does not drop and recreate the table: it keeps the pre-existing table, which
differs from the table the fetched payload would produce, and performs no
fetch or write at all. -/
theorem C2_counterexample :
    (load_sf_population_polygons sampleWorld true true presentState).1
        = .ok presentMetaResult ∧
    presentMetaResult.physTable = presentState.physTable ∧
    presentMetaResult.physTable ≠ some (freshTable [sampleRow]) ∧
    sampleWorld.parsed = .ok [sampleRow] ∧
    (load_sf_population_polygons sampleWorld true true presentState).2.filter
        Effect.isDataEffect = [] := by
  have hrows : (freshTable [sampleRow]).rows = [serializeRow sampleRow] := by
    have h := toBatches_flatten 500 ([sampleRow].map serializeRow)
    simpa [freshTable] using h
  refine ⟨rfl, rfl, ?_, rfl, rfl⟩
  intro hEq
  simp only [presentMetaResult] at hEq
  have h2 : ({ rows := [], dtypes := sfDtype } : PhysTable)
      = freshTable [sampleRow] := Option.some.inj hEq
  have h3 := congrArg PhysTable.rows h2
  rw [hrows] at h3
  simp at h3

/-- C2 (amended): with `force = true` and `only_metadata = false`, when the
fetch, parse and bulk write succeed, the physical table is dropped and
recreated from the freshly fetched payload, even if it already existed with
different contents. -/
theorem C2_force_drops_and_recreates (w : World) (s : DBState)
    (df : List RawRow) (hf : w.fetchErr = none) (hp : w.parsed = .ok df)
    (hw : w.sqlWriteErr = none) :
    ∃ s', (load_sf_population_polygons w false true s).1 = .ok s' ∧
      s'.physTable = some (freshTable df) ∧
      Effect.fetch sfUrl ∈ (load_sf_population_polygons w false true s).2 ∧
      Effect.replaceTable tblName
        ∈ (load_sf_population_polygons w false true s).2 := by
  have hc : (!false && (!s.physTable.isSome || true)) = true := by simp
  have hload := load_data w false true s df hc hf hp hw
  refine ⟨(metadataStep w ⟨some (freshTable df), s.catalog⟩).1,
    by rw [hload], metadataStep_fst_physTable w _, ?_, ?_⟩
  · rw [hload]; simp
  · rw [hload]; simp

/-- C2 witness: the amended statement at `sampleWorld` on a database whose
table already exists with different contents. -/
theorem C2_force_drops_and_recreates_witness :
    sampleWorld.fetchErr = none ∧ sampleWorld.parsed = .ok [sampleRow] ∧
    sampleWorld.sqlWriteErr = none ∧
    (∃ s', (load_sf_population_polygons sampleWorld false true
        presentState).1 = .ok s' ∧
      s'.physTable = some (freshTable [sampleRow]) ∧
      Effect.fetch sfUrl
        ∈ (load_sf_population_polygons sampleWorld false true presentState).2 ∧
      Effect.replaceTable tblName
        ∈ (load_sf_population_polygons sampleWorld false true
            presentState).2) :=
  ⟨rfl, rfl, rfl,
   C2_force_drops_and_recreates sampleWorld presentState [sampleRow]
     rfl rfl rfl⟩

/-- C8: whenever the data-load branch runs, any failure of the network fetch,
the payload parse, or the bulk SQL write propagates out of the routine
unchanged: the call returns exactly that error after a single fetch attempt,
with no retry, no translation, and no partial-success result. -/
theorem C8_failures_propagate_unchanged (w : World) (o f : Bool) (s : DBState)
    (hc : (!o && (!s.physTable.isSome || f)) = true) :
    (∀ e, w.fetchErr = some e →
        load_sf_population_polygons w o f s
          = (.error e, [Effect.fetch sfUrl])) ∧
    (∀ e, w.fetchErr = none → w.parsed = .error e →
        load_sf_population_polygons w o f s
          = (.error e, [Effect.fetch sfUrl])) ∧
    (∀ df e, w.fetchErr = none → w.parsed = .ok df → w.sqlWriteErr = some e →
        load_sf_population_polygons w o f s
          = (.error e, [Effect.fetch sfUrl])) :=
  ⟨fun e he => load_fetch_err w o f s e hc he,
   fun e hf hp => load_parse_err w o f s e hc hf hp,
   fun df e hf hp hw => load_write_err w o f s df e hc hf hp hw⟩

/-- C8 witness: a failing network fetch under `errWorld` surfaces as exactly
that error after one fetch attempt. -/
theorem C8_failures_propagate_unchanged_witness :
    (!false && (!emptyState.physTable.isSome || true)) = true ∧
    errWorld.fetchErr = some "connection refused" ∧
    load_sf_population_polygons errWorld false true emptyState
      = (.error "connection refused", [Effect.fetch sfUrl]) :=
  ⟨rfl, rfl,
   (C8_failures_propagate_unchanged errWorld false true emptyState rfl).1
     "connection refused" rfl⟩

/-- C4: the metadata upsert step runs for every flag combination, and after
any successful call the catalog record named `sf_population_polygons` has the
description "Population density of San Francisco", `filter_select_enabled`
set to true, and a column list refreshed from the physical table's live
schema. -/
theorem C4_metadata_upsert_always_runs (w : World) (o f : Bool)
    (s s' : DBState)
    (h : (load_sf_population_polygons w o f s).1 = .ok s') :
    Effect.queryDataset tblName ∈ (load_sf_population_polygons w o f s).2 ∧
    Effect.fetchMetadata tblName ∈ (load_sf_population_polygons w o f s).2 ∧
    ∃ r, s'.catalog.find? matchesTblName = some r ∧
      r.description = some sfDescription ∧
      r.filter_select_enabled = true ∧
      r.columns = liveColumns s'.physTable := by
  obtain ⟨hq, hm⟩ := load_ok_mem_meta w o f s s' h
  obtain ⟨r, hr, hd, hfl, _, hcols⟩ := load_ok_record_fixed w o f s s' h
  exact ⟨hq, hm, r, hr, hd, hfl, hcols⟩

/-- C4 witness: a concrete metadata-only call on a fresh database. -/
theorem C4_metadata_upsert_always_runs_witness :
    (load_sf_population_polygons sampleWorld true false emptyState).1
        = .ok metadataOnlyResult ∧
    (Effect.queryDataset tblName
        ∈ (load_sf_population_polygons sampleWorld true false emptyState).2 ∧
      Effect.fetchMetadata tblName
        ∈ (load_sf_population_polygons sampleWorld true false emptyState).2 ∧
      ∃ r, metadataOnlyResult.catalog.find? matchesTblName = some r ∧
        r.description = some sfDescription ∧
        r.filter_select_enabled = true ∧
        r.columns = liveColumns metadataOnlyResult.physTable) :=
  ⟨rfl, C4_metadata_upsert_always_runs sampleWorld true false emptyState
    metadataOnlyResult rfl⟩

/-- C5: on every successful call, a catalog record named
`sf_population_polygons` is created exactly when none exists, existing
records are reused in place and never deleted, and a state with at most one
such record keeps at most one. -/
theorem C5_record_created_exactly_when_missing (w : World) (o f : Bool)
    (s s' : DBState)
    (h : (load_sf_population_polygons w o f s).1 = .ok s') :
    (s.catalog.find? matchesTblName = none →
        s'.catalog.length = s.catalog.length + 1 ∧ sfRecordCount s' = 1) ∧
    (∀ r, s.catalog.find? matchesTblName = some r →
        s'.catalog.length = s.catalog.length ∧
        sfRecordCount s' = sfRecordCount s) ∧
    (sfRecordCount s ≤ 1 → sfRecordCount s' ≤ 1) := by
  obtain ⟨pt, hpt, hcat, _⟩ := load_ok_shape w o f s s' h
  refine ⟨?_, ?_, ?_⟩
  · intro hnone
    constructor
    · rw [hcat, upsertFirst_of_find?_none _ _ _ hnone]
      simp
    · show (s'.catalog.filter matchesTblName).length = 1
      rw [hcat, filter_length_upsertFirst, hnone]
  · intro r hr
    constructor
    · rw [hcat]
      exact length_upsertFirst_of_some _ _ _ r hr
    · show (s'.catalog.filter matchesTblName).length = _
      rw [hcat, filter_length_upsertFirst, hr]
      rfl
  · intro hle
    show (s'.catalog.filter matchesTblName).length ≤ 1
    rw [hcat, filter_length_upsertFirst]
    cases hfind : s.catalog.find? matchesTblName with
    | none => simp
    | some r => exact hle

/-- C5 witness: a concrete call on a fresh database creates exactly one
record. -/
theorem C5_record_created_exactly_when_missing_witness :
    (load_sf_population_polygons sampleWorld true false emptyState).1
        = .ok metadataOnlyResult ∧
    ((emptyState.catalog.find? matchesTblName = none →
        metadataOnlyResult.catalog.length = emptyState.catalog.length + 1 ∧
        sfRecordCount metadataOnlyResult = 1) ∧
      (∀ r, emptyState.catalog.find? matchesTblName = some r →
        metadataOnlyResult.catalog.length = emptyState.catalog.length ∧
        sfRecordCount metadataOnlyResult = sfRecordCount emptyState) ∧
      (sfRecordCount emptyState ≤ 1 → sfRecordCount metadataOnlyResult ≤ 1)) :=
  ⟨rfl, C5_record_created_exactly_when_missing sampleWorld true false
    emptyState metadataOnlyResult rfl⟩

/-- C9: the catalog lookup filters only by table name: on every successful
call the first record named `sf_population_polygons` — whatever its schema or
database link — is mutated in place with its database link rebound to the
example database and its schema kept, and when no such record exists the
newly appended record carries the example database's default schema. -/
theorem C9_lookup_filters_only_by_table_name (w : World) (o f : Bool)
    (s s' : DBState)
    (h : (load_sf_population_polygons w o f s).1 = .ok s') :
    (∀ r, s.catalog.find? matchesTblName = some r →
        s'.catalog.find? matchesTblName = some
          { r with
            description := some sfDescription
            databaseId := w.exampleDbId
            filter_select_enabled := true
            columns := liveColumns s'.physTable }) ∧
    (s.catalog.find? matchesTblName = none →
        s'.catalog = s.catalog ++
          [{ table_name := tblName
             schema := w.defaultSchema
             description := some sfDescription
             databaseId := w.exampleDbId
             filter_select_enabled := true
             columns := liveColumns s'.physTable }]) := by
  obtain ⟨pt, hpt, hcat, _⟩ := load_ok_shape w o f s s' h
  constructor
  · intro r hr
    rw [hcat]
    have hfound := find?_upsertFirst_of_some w (liveColumns pt)
      (newDatasetRecord w.defaultSchema) s.catalog r hr
    rw [hfound, hpt]
    rfl
  · intro hnone
    rw [hcat, upsertFirst_of_find?_none _ _ _ hnone, hpt]
    rfl

/-- C9 witness: a record belonging to database 99 and schema
`legacy_schema` is rebound to the example database with its schema kept. -/
theorem C9_lookup_filters_only_by_table_name_witness :
    (load_sf_population_polygons sampleWorld true false foreignState).1
        = .ok foreignResult ∧
    ((∀ r, foreignState.catalog.find? matchesTblName = some r →
        foreignResult.catalog.find? matchesTblName = some
          { r with
            description := some sfDescription
            databaseId := sampleWorld.exampleDbId
            filter_select_enabled := true
            columns := liveColumns foreignResult.physTable }) ∧
      (foreignState.catalog.find? matchesTblName = none →
        foreignResult.catalog = foreignState.catalog ++
          [{ table_name := tblName
             schema := sampleWorld.defaultSchema
             description := some sfDescription
             databaseId := sampleWorld.exampleDbId
             filter_select_enabled := true
             columns := liveColumns foreignResult.physTable }])) :=
  ⟨rfl, C9_lookup_filters_only_by_table_name sampleWorld true false
    foreignState foreignResult rfl⟩

/-- The state produced by a full data load on `emptyState` under
`sampleWorld`. -/
def dataLoadResult : DBState :=
  { physTable := some (freshTable [sampleRow])
    catalog := [{ table_name := tblName
                  schema := "main"
                  description := some sfDescription
                  databaseId := 7
                  filter_select_enabled := true
                  columns := sfDtype }] }

/-- C10 counterexample: with `only_metadata = false` and `force = false` on a
database whose table is absent, the routine fetches and creates the table
before the metadata step runs, so `fetch_metadata` is not invoked against an
absent table: the final physical table (which the metadata step never
changes) is present, and a network fetch occurred. -/
theorem C10_counterexample :
    emptyState.physTable = none ∧
    (load_sf_population_polygons sampleWorld false false emptyState).1
        = .ok dataLoadResult ∧
    dataLoadResult.physTable ≠ none ∧
    Effect.fetch sfUrl
      ∈ (load_sf_population_polygons sampleWorld false false emptyState).2 := by
  have hload :=
    load_data sampleWorld false false emptyState [sampleRow] rfl rfl rfl rfl
  refine ⟨rfl, ?_, ?_, ?_⟩
  · rw [hload]
    rfl
  · simp [dataLoadResult]
  · rw [hload]
    simp

/-- C10 (amended): when `only_metadata = true` is passed on a database where
the table is absent, the metadata step still runs unconditionally for both
values of `force`: the call succeeds with no data effect, invokes
`fetch_metadata` while the table is still absent, and creates the catalog
record when none exists. -/
theorem C10_metadata_step_runs_on_absent_table (w : World) (f : Bool)
    (s : DBState) (h : s.physTable = none) :
    ∃ s', (load_sf_population_polygons w true f s).1 = .ok s' ∧
      s'.physTable = none ∧
      Effect.fetchMetadata tblName
        ∈ (load_sf_population_polygons w true f s).2 ∧
      (∀ e ∈ (load_sf_population_polygons w true f s).2,
        e.isDataEffect = false) ∧
      (s.catalog.find? matchesTblName = none →
        ∃ r, s'.catalog.find? matchesTblName = some r ∧
          r.table_name = tblName) := by
  have hload := load_skip w true f s rfl
  refine ⟨(metadataStep w s).1, by rw [hload], ?_, ?_, ?_, ?_⟩
  · rw [metadataStep_fst_physTable, h]
  · rw [hload]
    exact fetchMetadata_mem_metadataStep w s
  · intro e he
    rw [hload] at he
    exact metadataStep_no_data_effect w s e he
  · intro hnone
    refine ⟨applyMetadataUpdates w (liveColumns s.physTable)
      (newDatasetRecord w.defaultSchema), ?_, rfl⟩
    rw [metadataStep_fst_catalog, upsertFirst_of_find?_none _ _ _ hnone,
      find?_append_of_none _ _ _ hnone, List.find?_cons_of_pos]
    simp

/-- C10 witness: the amended statement on a fresh database. -/
theorem C10_metadata_step_runs_on_absent_table_witness :
    emptyState.physTable = none ∧
    (∃ s', (load_sf_population_polygons sampleWorld true false emptyState).1
        = .ok s' ∧
      s'.physTable = none ∧
      Effect.fetchMetadata tblName
        ∈ (load_sf_population_polygons sampleWorld true false emptyState).2 ∧
      (∀ e ∈ (load_sf_population_polygons sampleWorld true false
          emptyState).2, e.isDataEffect = false) ∧
      (emptyState.catalog.find? matchesTblName = none →
        ∃ r, s'.catalog.find? matchesTblName = some r ∧
          r.table_name = tblName)) :=
  ⟨rfl, C10_metadata_step_runs_on_absent_table sampleWorld false
    emptyState rfl⟩

/-- C6: whenever the data-load branch runs (and the external operations
succeed), the call replaces the physical table, declares the column types
zipcode and population as 64-bit integers, contour as text and area as
floating point, re-encodes every contour value by JSON serialization, and
inserts the rows in batches of at most 500 that concatenate to the full
payload. -/
theorem C6_bulk_insert_shape (w : World) (o f : Bool) (s : DBState)
    (df : List RawRow)
    (hc : (!o && (!s.physTable.isSome || f)) = true)
    (hf : w.fetchErr = none) (hp : w.parsed = .ok df)
    (hw : w.sqlWriteErr = none) :
    ∃ s', (load_sf_population_polygons w o f s).1 = .ok s' ∧
      Effect.replaceTable tblName
        ∈ (load_sf_population_polygons w o f s).2 ∧
      s'.physTable = some (freshTable df) ∧
      (freshTable df).dtypes
        = [("zipcode", SqlType.bigInteger), ("population", SqlType.bigInteger),
           ("contour", SqlType.text), ("area", SqlType.float)] ∧
      (freshTable df).rows = df.map (fun r =>
        { zipcode := r.zipcode
          population := r.population
          contour := Json.dumps r.contour
          area := r.area }) ∧
      (toBatches 500 (df.map serializeRow)).flatten = df.map serializeRow ∧
      (∀ b ∈ toBatches 500 (df.map serializeRow), b.length ≤ 500) ∧
      (∀ nm k, Effect.insertBatch nm k
          ∈ (load_sf_population_polygons w o f s).2 →
        nm = tblName ∧ k ≤ 500) := by
  have hload := load_data w o f s df hc hf hp hw
  refine ⟨(metadataStep w ⟨some (freshTable df), s.catalog⟩).1,
    by rw [hload], ?_, metadataStep_fst_physTable w _, rfl, ?_, ?_, ?_, ?_⟩
  · rw [hload]
    simp
  · exact toBatches_flatten 500 (df.map serializeRow)
  · exact toBatches_flatten 500 (df.map serializeRow)
  · intro b hb
    exact length_le_of_mem_toBatches 499 _ b hb
  · intro nm k hk
    rw [hload] at hk
    rcases List.mem_append.mp hk with h1 | hmeta
    · rcases List.mem_append.mp h1 with h0 | hins
      · simp at h0
      · obtain ⟨b, hb, hbe⟩ := List.mem_map.mp hins
        injection hbe with hnm hkb
        exact ⟨hnm.symm, hkb ▸ length_le_of_mem_toBatches 499 _ b hb⟩
    · have hno := metadataStep_no_data_effect w _ _ hmeta
      simp [Effect.isDataEffect] at hno

/-- C6 witness: a concrete full data load on a fresh database. -/
theorem C6_bulk_insert_shape_witness :
    (!false && (!emptyState.physTable.isSome || false)) = true ∧
    sampleWorld.fetchErr = none ∧ sampleWorld.parsed = .ok [sampleRow] ∧
    sampleWorld.sqlWriteErr = none ∧
    (∃ s', (load_sf_population_polygons sampleWorld false false
        emptyState).1 = .ok s' ∧
      Effect.replaceTable tblName
        ∈ (load_sf_population_polygons sampleWorld false false emptyState).2 ∧
      s'.physTable = some (freshTable [sampleRow]) ∧
      (freshTable [sampleRow]).dtypes
        = [("zipcode", SqlType.bigInteger), ("population", SqlType.bigInteger),
           ("contour", SqlType.text), ("area", SqlType.float)] ∧
      (freshTable [sampleRow]).rows = [sampleRow].map (fun r =>
        { zipcode := r.zipcode
          population := r.population
          contour := Json.dumps r.contour
          area := r.area }) ∧
      (toBatches 500 ([sampleRow].map serializeRow)).flatten
        = [sampleRow].map serializeRow ∧
      (∀ b ∈ toBatches 500 ([sampleRow].map serializeRow),
        b.length ≤ 500) ∧
      (∀ nm k, Effect.insertBatch nm k
          ∈ (load_sf_population_polygons sampleWorld false false
              emptyState).2 →
        nm = tblName ∧ k ≤ 500)) :=
  ⟨rfl, rfl, rfl, rfl,
   C6_bulk_insert_shape sampleWorld false false emptyState [sampleRow]
     rfl rfl rfl rfl⟩

/-- C7: two successive calls with identical flags in the same world leave the
physical table exactly as a single call does, and after each call the
record's mutable fields are reset to the same fixed values: the fixed
description, the filter flag true, and the example database link. -/
theorem C7_two_calls_idempotent (w : World) (o f : Bool) (s s1 s2 : DBState)
    (h1 : (load_sf_population_polygons w o f s).1 = .ok s1)
    (h2 : (load_sf_population_polygons w o f s1).1 = .ok s2) :
    s2.physTable = s1.physTable ∧
    (∃ r, s1.catalog.find? matchesTblName = some r ∧
      r.description = some sfDescription ∧
      r.filter_select_enabled = true ∧ r.databaseId = w.exampleDbId) ∧
    (∃ r, s2.catalog.find? matchesTblName = some r ∧
      r.description = some sfDescription ∧
      r.filter_select_enabled = true ∧ r.databaseId = w.exampleDbId) := by
  obtain ⟨r1, hr1, hd1, hfl1, hdb1, _⟩ := load_ok_record_fixed w o f s s1 h1
  obtain ⟨r2, hr2, hd2, hfl2, hdb2, _⟩ := load_ok_record_fixed w o f s1 s2 h2
  refine ⟨?_, ⟨r1, hr1, hd1, hfl1, hdb1⟩, ⟨r2, hr2, hd2, hfl2, hdb2⟩⟩
  cases hc1 : (!o && (!s.physTable.isSome || f)) with
  | true =>
    cases hfe : w.fetchErr with
    | some e => rw [load_fetch_err w o f s e hc1 hfe] at h1; simp at h1
    | none =>
      cases hpe : w.parsed with
      | error e => rw [load_parse_err w o f s e hc1 hfe hpe] at h1; simp at h1
      | ok df =>
        cases hwe : w.sqlWriteErr with
        | some e =>
          rw [load_write_err w o f s df e hc1 hfe hpe hwe] at h1; simp at h1
        | none =>
          rw [load_data w o f s df hc1 hfe hpe hwe] at h1
          simp only [Except.ok.injEq] at h1
          have hs1 : s1.physTable = some (freshTable df) := by
            rw [← h1]; rfl
          cases hc2 : (!o && (!s1.physTable.isSome || f)) with
          | true =>
            rw [load_data w o f s1 df hc2 hfe hpe hwe] at h2
            simp only [Except.ok.injEq] at h2
            rw [← h2, metadataStep_fst_physTable]
            exact hs1.symm
          | false =>
            rw [load_skip w o f s1 hc2] at h2
            simp only [Except.ok.injEq] at h2
            rw [← h2, metadataStep_fst_physTable]
  | false =>
    rw [load_skip w o f s hc1] at h1
    simp only [Except.ok.injEq] at h1
    have hs1 : s1.physTable = s.physTable := by
      rw [← h1]; rfl
    cases hc2 : (!o && (!s1.physTable.isSome || f)) with
    | true =>
      rw [hs1] at hc2
      rw [hc2] at hc1
      cases hc1
    | false =>
      rw [load_skip w o f s1 hc2] at h2
      simp only [Except.ok.injEq] at h2
      rw [← h2, metadataStep_fst_physTable]

/-- C7 witness: two concrete successive metadata-only calls reach the same
state as one. -/
theorem C7_two_calls_idempotent_witness :
    (load_sf_population_polygons sampleWorld true false emptyState).1
        = .ok metadataOnlyResult ∧
    (load_sf_population_polygons sampleWorld true false
        metadataOnlyResult).1 = .ok metadataOnlyResult ∧
    (metadataOnlyResult.physTable = metadataOnlyResult.physTable ∧
      (∃ r, metadataOnlyResult.catalog.find? matchesTblName = some r ∧
        r.description = some sfDescription ∧
        r.filter_select_enabled = true ∧
        r.databaseId = sampleWorld.exampleDbId) ∧
      (∃ r, metadataOnlyResult.catalog.find? matchesTblName = some r ∧
        r.description = some sfDescription ∧
        r.filter_select_enabled = true ∧
        r.databaseId = sampleWorld.exampleDbId)) :=
  ⟨rfl, rfl,
   C7_two_calls_idempotent sampleWorld true false emptyState
     metadataOnlyResult metadataOnlyResult rfl rfl⟩

end SFPolygons
